import Mathlib

/-!
Verification of the route code generator in
`packages/run/src/vite/codegen/index.ts`.

The generator compiles a set of routes into (a) a per-verb URL matcher
(`writeRouterVerb`), (b) one dispatch function per route and verb
(`writeRouteEntryHandler`), and (c) the top-level `match` / `invoke` / `fetch`
entry points (`renderRouter`).  The definitions below are a shallow embedding
of that code: the generator's control flow is transcribed directly, and the
*semantics* of the generated JavaScript text (which is straight-line code with
a fixed shape) is modelled as Lean functions over the same data.

Strings are modelled as `List Char`; the JavaScript string primitives used by
the generated matcher (`indexOf`, `slice`, `toLowerCase`, `endsWith`) are
defined below with JavaScript's clamping semantics.
-/

/-- HTTP verbs.  Modelled from the spec: the `httpVerbs` constant lives in
`../constants`, which is not part of the shown source; the spec asks for a
fixed enumerated variant set. -/
inductive HttpVerb where
  | get
  | post
  | put
  | delete
  | patch
  | options
  | head
deriving DecidableEq, Repr

/-- The string a verb renders as in generated identifiers (`get`, `post`, ...). -/
def verbStr : HttpVerb → String
  | .get => "get"
  | .post => "post"
  | .put => "put"
  | .delete => "delete"
  | .patch => "patch"
  | .options => "options"
  | .head => "head"

/-- A reference to one routable source file (data model of `../types`, as used
by `codegen/index.ts`): an import path, a relative path, and — for handlers —
the verbs it implements (`handler?.verbs`). -/
structure RoutableFile where
  importPath : String
  relativePath : String
  verbs : Option (List HttpVerb)
deriving DecidableEq, Repr

/-- `{ name, index }`: `index >= 0` is a positional dynamic-segment capture
(rendered as `s<index+1>`), `index == -1` is the catch-all sentinel. -/
structure ParamInfo where
  name : String
  index : Int
deriving DecidableEq, Repr

/-- One middleware binding as consumed by the generator (`m.id` in
`renderRouteEntry`, `{ id, importPath }` in `renderMiddleware`). -/
structure MiddlewareBinding where
  id : Nat
  importPath : String
deriving DecidableEq, Repr

/-- The route model consumed by `codegen/index.ts`. -/
structure Route where
  key : String
  path : String
  params : List ParamInfo
  handler : Option RoutableFile
  page : Option RoutableFile
  layouts : List RoutableFile
  middleware : List MiddlewareBinding
  meta : Option RoutableFile
  index : Nat
deriving DecidableEq, Repr

/-- `BuiltRoutes`: the ordered route list plus the special `404` / `500`
page bindings (`routes.special[RoutableFileTypes.NotFound]` and
`routes.special[RoutableFileTypes.Error]`). -/
structure BuiltRoutes where
  list : List Route
  notFoundPage : Option Route
  errorPage : Option Route
deriving Repr

/-- Trailing-slash policies of `RouterOptions` (`options.trailingSlashes`). -/
inductive TrailingSlashPolicy where
  | RedirectWithout
  | RedirectWith
  | RewriteWithout
  | RewriteWith
deriving DecidableEq, Repr

/-- `RouterOptions` as destructured by `renderRouter`. -/
structure RouterOptions where
  trailingSlashes : TrailingSlashPolicy
deriving DecidableEq, Repr

/-- Modelled from the spec: `getVerbs` (from `../utils/route`, whose source is
not shown) returns the verbs a route supports — the handler's verbs plus `get`
when the route has a page — and a falsy value when there are none, which
`renderRouteEntry` turns into a construction error. -/
def getVerbs (route : Route) : Option (List HttpVerb) :=
  let hv := (route.handler.bind RoutableFile.verbs).getD []
  let vs := if route.page.isSome && !(hv.contains HttpVerb.get) then hv ++ [HttpVerb.get] else hv
  if vs.isEmpty then none else some vs

/-- Modelled from the spec: `hasVerb route verb` (from `../utils/route`) tests
membership in `getVerbs`. -/
def hasVerb (route : Route) (verb : HttpVerb) : Bool :=
  ((getVerbs route).getD []).contains verb

/-- JavaScript `s.indexOf(c, start) + 1`, exactly the value the generated
matcher stores in its `i<n>` variables: `0` means "no further occurrence". -/
def jsIndexOfPlus1 (s : List Char) (c : Char) (start : Nat) : Nat :=
  match (s.drop start).findIdx? (fun x => x == c) with
  | some j => start + j + 1
  | none => 0

/-- JavaScript `s.slice(start, stop)` with a possibly negative `stop`
(counted from the end) and JavaScript's clamping behaviour. -/
def jsSlice (s : List Char) (start : Nat) (stop : Int) : List Char :=
  let len : Int := s.length
  let stopN : Nat := (if stop < 0 then max (len + stop) 0 else min stop len).toNat
  (s.take stopN).drop start

/-- JavaScript `s.toLowerCase()` on the ASCII segments the matcher compares. -/
def jsToLower (s : List Char) : List Char :=
  s.map Char.toLower

/-- JavaScript `s.endsWith("/")`. -/
def endsWithSlash (s : List Char) : Bool :=
  s.getLast? == some '/'

/-- The regular-expression test in `wrapPropertyName`
(`/^[^A-Za-z_$]|[^A-Za-z0-9$_]/.test(name)`): true when the first character is
outside `[A-Za-z_$]` or any character is outside `[A-Za-z0-9$_]`. -/
def wrapPropertyNameTest (name : List Char) : Bool :=
  (match name with
   | [] => false
   | c :: _ => !(('A' ≤ c && c ≤ 'Z') || ('a' ≤ c && c ≤ 'z') || c == '_' || c == '$')) ||
  name.any (fun c =>
    !(('A' ≤ c && c ≤ 'Z') || ('a' ≤ c && c ≤ 'z') || ('0' ≤ c && c ≤ '9') || c == '$' || c == '_'))

/-- `wrapPropertyName` (index.ts lines 575-577): quote the property name when
the regular expression matches, otherwise emit it bare. -/
def wrapPropertyName (name : List Char) : List Char :=
  if wrapPropertyNameTest name then '\'' :: (name ++ ['\'']) else name

/-- The claim's own description of a JavaScript-invalid identifier, written
independently of the source regular expression (for claim C10): the first
character is not a letter, underscore or dollar sign, or some character is
outside letters, digits, dollar sign and underscore. -/
def claimInvalidIdent (name : List Char) : Prop :=
  (∃ c cs, name = c :: cs ∧
      ¬(('A' ≤ c ∧ c ≤ 'Z') ∨ ('a' ≤ c ∧ c ≤ 'z') ∨ c = '_' ∨ c = '$')) ∨
  (∃ c, c ∈ name ∧
      ¬(('A' ≤ c ∧ c ≤ 'Z') ∨ ('a' ≤ c ∧ c ≤ 'z') ∨ ('0' ≤ c ∧ c ≤ '9') ∨ c = '$' ∨ c = '_'))

/-- A generated layer identifier: the verb handler (`<verb>Handler`, wrapped by
`normalize`) or a middleware wrapper (`mware<id>`). -/
inductive LayerRef where
  | handlerL (verb : HttpVerb)
  | mwareL (id : Nat)
deriving DecidableEq, Repr

/-- The identifier a layer renders as in the emitted module. -/
def LayerRef.render : LayerRef → String
  | .handlerL v => verbStr v ++ "Handler"
  | .mwareL id => "mware" ++ toString id

/-- A continuation name appearing in the emitted dispatch function: `__page`,
`__<verb>Handler`, `__mware<id>`, or the runtime sentinel `noContent`. -/
inductive ContName where
  | pageC
  | handlerC (verb : HttpVerb)
  | mwareC (id : Nat)
  | noContentC
deriving DecidableEq, Repr

/-- The identifier a continuation name renders as. -/
def ContName.render : ContName → String
  | .pageC => "__page"
  | .handlerC v => "__" ++ verbStr v ++ "Handler"
  | .mwareC id => "__mware" ++ toString id
  | .noContentC => "noContent"

/-- One emitted statement's right-hand side: `call(<layer>, <next>, context)`
(from `writeMiddleware`) or the page `Response` construction (from
`writePageResponse`). -/
inductive StepExpr where
  | callE (layer : LayerRef) (next : ContName)
  | pageE
deriving DecidableEq, Repr

/-- The body of one generated dispatch function `export async function
<verb><index>(context, ...)`: the continuation definitions written into the
`cont` branch, in emission order, and the single `return` expression. -/
structure EntryCode where
  conts : List (ContName × StepExpr)
  body : StepExpr
deriving DecidableEq, Repr

/-- A fully resolved dispatch chain: nested `call` wrappings terminated by the
page render or the `noContent` sentinel. -/
inductive Step where
  | call (layer : LayerRef) (next : Step)
  | pageStep
  | noContentStep
deriving DecidableEq, Repr

/-- Resolve a continuation name against the definitions emitted so far;
`noContent` is the imported runtime sentinel, everything else must be a
previously emitted `const`. -/
def resolveIn (env : List (ContName × Step)) : ContName → Option Step
  | .noContentC => some Step.noContentStep
  | n => env.lookup n

/-- Evaluate one emitted right-hand side against the continuations in scope. -/
def evalExpr (env : List (ContName × Step)) : StepExpr → Option Step
  | .pageE => some Step.pageStep
  | .callE l n => (resolveIn env n).map (Step.call l)

/-- Evaluate the emitted `const <name> = () => ...` definitions in order; each
definition may refer to any earlier one (the generator always emits them in
dependency order). -/
def buildEnv : List (ContName × StepExpr) → List (ContName × Step) → List (ContName × Step)
  | [], env => env
  | (n, e) :: rest, env =>
    match evalExpr env e with
    | some s => buildEnv rest ((n, s) :: env)
    | none => buildEnv rest env

/-- The dispatch chain denoted by a generated entry function: its returned
expression, with every continuation name unfolded. -/
def entryChain (ec : EntryCode) : Option Step :=
  evalExpr (buildEnv ec.conts []) ec.body

/-- The `while (i--)` middleware loop of `writeRouteEntryHandler` (index.ts
lines 224-233), transcribed as recursion over the middleware list processed
from the last declared element to the first (the loop's iteration order).  The
argument is `route.middleware.reverse`; `inner` is the continuation name the
innermost middleware receives (`currentName` at loop entry).  Iterations with
`i ≠ 0` emit a named continuation, the final `i = 0` iteration emits the
function's `return` expression.  The loop is only entered when the middleware
list is non-empty, so the `[]` case is unreachable. -/
def mwLoopRev : List MiddlewareBinding → ContName → List (ContName × StepExpr) × StepExpr
  | [], inner => ([], StepExpr.callE (LayerRef.mwareL 0) inner)
  | [m], inner => ([], StepExpr.callE (LayerRef.mwareL m.id) inner)
  | m :: rest, inner =>
    let ds := mwLoopRev rest (ContName.mwareC m.id)
    ((ContName.mwareC m.id, StepExpr.callE (LayerRef.mwareL m.id) inner) :: ds.1, ds.2)

/-- The test `handler?.verbs?.includes(verb)` for the `get` verb. -/
def handlerHasGet (route : Route) : Bool :=
  match route.handler with
  | some h => (h.verbs.getD []).contains HttpVerb.get
  | none => false

/-- `writeRouteEntryHandler` (index.ts lines 163-238): emit one dispatch
function for one route and verb.  The returned `EntryCode` carries the
continuation definitions and the returned expression; the error case is the
`throw new Error(...)` of line 221. -/
def writeRouteEntryHandler (route : Route) (verb : HttpVerb) : Except String EntryCode :=
  let len := route.middleware.length
  if route.page.isSome && verb == HttpVerb.get then
    if handlerHasGet route then
      if len != 0 then
        let ds := mwLoopRev route.middleware.reverse (ContName.handlerC HttpVerb.get)
        Except.ok ⟨(ContName.pageC, StepExpr.pageE) ::
            (ContName.handlerC HttpVerb.get,
              StepExpr.callE (LayerRef.handlerL HttpVerb.get) ContName.pageC) :: ds.1, ds.2⟩
      else
        Except.ok ⟨[(ContName.pageC, StepExpr.pageE)],
          StepExpr.callE (LayerRef.handlerL HttpVerb.get) ContName.pageC⟩
    else if len != 0 then
      let ds := mwLoopRev route.middleware.reverse ContName.pageC
      Except.ok ⟨(ContName.pageC, StepExpr.pageE) :: ds.1, ds.2⟩
    else
      Except.ok ⟨[], StepExpr.pageE⟩
  else
    match route.handler with
    | some _ =>
      if len != 0 then
        let ds := mwLoopRev route.middleware.reverse (ContName.handlerC verb)
        Except.ok ⟨(ContName.handlerC verb,
            StepExpr.callE (LayerRef.handlerL verb) ContName.noContentC) :: ds.1, ds.2⟩
      else
        Except.ok ⟨[], StepExpr.callE (LayerRef.handlerL verb) ContName.noContentC⟩
    | none =>
      Except.error ("Route " ++ route.key ++ " has no handler for " ++ verbStr verb ++ " requests")

/-- The innermost (non-middleware) part of the dispatch chain for a route and
verb: the handler wrapping the page render, the bare page render, or the
handler over the `noContent` sentinel. -/
def innerStep (route : Route) (verb : HttpVerb) : Step :=
  if route.page.isSome && verb == HttpVerb.get then
    if handlerHasGet route then
      Step.call (LayerRef.handlerL HttpVerb.get) Step.pageStep
    else Step.pageStep
  else Step.call (LayerRef.handlerL verb) Step.noContentStep

/-- The chain a route's middleware list wraps around an inner step, first
declared middleware outermost. -/
def mwWrap (mws : List MiddlewareBinding) (inner : Step) : Step :=
  mws.foldr (fun m acc => Step.call (LayerRef.mwareL m.id) acc) inner

/-- `renderRouteTemplate` (index.ts lines 23-37): a route without a page is a
construction error naming the route key; otherwise the artifact composes the
layouts around the page (`writeRouteTemplateTag` over
`[...route.layouts, route.page]`). -/
def renderRouteTemplate (route : Route) : Except String (List RoutableFile) :=
  match route.page with
  | none => Except.error ("Route " ++ route.key ++ " has no page to render")
  | some p => Except.ok (route.layouts ++ [p])

/-- `renderRouteEntry` (index.ts lines 62-136): a route supporting no verb is
a construction error naming the route key; otherwise one dispatch function is
emitted per supported verb. -/
def renderRouteEntry (route : Route) : Except String (List (HttpVerb × EntryCode)) :=
  match getVerbs route with
  | none =>
    Except.error ("Route " ++ route.key ++ " doesn't have a handler or page for any HTTP verbs")
  | some verbs =>
    verbs.mapM (fun v => (writeRouteEntryHandler route v).map (fun ec => (v, ec)))

/-- A response value in the runtime model: something a layer produced, the
rendered page, or the empty response. -/
inductive Resp where
  | fromLayer (layer : LayerRef)
  | pageHtml
  | empty
deriving DecidableEq, Repr

/-- Modelled from the spec: the runtime collaborator `call(layer, next,
context)` invokes a layer with the next continuation; a layer that produces a
response short-circuits the rest of the chain, a layer that declines falls
through to `next`.  `beh layer` is the layer's behaviour on the request at
hand (`none` = decline). -/
def runStep (beh : LayerRef → Option Resp) : Step → Resp
  | .call layer next =>
    match beh layer with
    | some r => r
    | none => runStep beh next
  | .pageStep => Resp.pageHtml
  | .noContentStep => Resp.empty

/-- A JavaScript `Error` as observed by the generated `fetch` handler:
`error.message` and `error.stack`. -/
structure JsError where
  message : String
  stack : String
deriving DecidableEq, Repr

/-- What `await route.handler(context, buildInput)` does on one request:
return a (possibly falsy) result, throw the `NotHandled` or `NotMatched`
signal, or throw an ordinary error. -/
inductive HandlerOutcome where
  | ok (r : Option Resp)
  | throwNotHandled
  | throwNotMatched
  | throwErr (e : JsError)
deriving DecidableEq, Repr

/-- A response produced by the generated `invoke`: the handler's response, the
rendered 404 page, or the rendered 500 page with the error attached to its
input (`buildInput({ error })`). -/
inductive InvokeResp where
  | fromHandler (r : Resp)
  | notFoundPage
  | errorPage (e : JsError)
deriving DecidableEq, Repr

/-- The HTTP status the generated `invoke` attaches to the responses it
constructs itself (the `status: 404` / `status: 500` literals); handler
responses pass through untouched. -/
def invokeRespStatus : InvokeResp → Option Nat
  | .fromHandler _ => none
  | .notFoundPage => some 404
  | .errorPage _ => some 500

/-- How one call of the generated `invoke` ends: with a response, with no
response (`return;` / falling off the end), or by (re)throwing an error. -/
inductive InvokeResult where
  | response (r : InvokeResp)
  | noResponse
  | thrown (e : JsError)
deriving DecidableEq, Repr

/-- What `context.params` / `context.meta` hold when `invoke` ends: copied
from the matched route, synthesized empty (`context.params = {};
context.meta = {};`), or never assigned. -/
inductive ParamsSource where
  | fromRoute
  | empty
deriving DecidableEq, Repr

/-- The tail of `invoke`'s `try` block: when a 404 page binding was compiled
in, render it if the client accepts HTML; otherwise (or with no binding at
all) fall off the end of the function with no response. -/
def notFoundFallback (has404 acceptsHtml : Bool) : InvokeResult :=
  if has404 && acceptsHtml then InvokeResult.response InvokeResp.notFoundPage
  else InvokeResult.noResponse

/-- Semantics of the generated `invoke` (index.ts lines 299-360).  `has404` /
`has500` record whether `routes.special` had a `404` / `500` binding when the
router was rendered (the generator emits different code for each case);
`route` is `null` or the matched route abstracted by what its dispatch chain
does on this request; `acceptsHtml` is the
`request.headers.get('Accept')?.includes('text/html')` test.  Returns the
result together with what `context.params` / `context.meta` were set to. -/
def invoke (has404 has500 : Bool) (route : Option HandlerOutcome) (acceptsHtml : Bool) :
    InvokeResult × Option ParamsSource :=
  match route with
  | some out =>
    match out with
    | .ok (some r) => (InvokeResult.response (InvokeResp.fromHandler r), some ParamsSource.fromRoute)
    | .ok none => (notFoundFallback has404 acceptsHtml, some ParamsSource.fromRoute)
    | .throwNotHandled => (InvokeResult.noResponse, some ParamsSource.fromRoute)
    | .throwNotMatched => (notFoundFallback has404 acceptsHtml, some ParamsSource.fromRoute)
    | .throwErr e =>
      (if has500 && acceptsHtml then InvokeResult.response (InvokeResp.errorPage e)
       else InvokeResult.thrown e, some ParamsSource.fromRoute)
  | none =>
    if has404 then (notFoundFallback has404 acceptsHtml, some ParamsSource.empty)
    else (InvokeResult.noResponse, none)

/-- The trailing-slash prologue of the generated `fetch` (index.ts lines
367-394): returns the redirect target, if any, and the possibly rewritten
pathname used for matching. -/
def applyTrailingSlash (policy : TrailingSlashPolicy) (pathname : List Char) :
    Option (List Char) × List Char :=
  match policy with
  | .RedirectWithout =>
    if pathname ≠ ['/'] ∧ endsWithSlash pathname then
      (some (jsSlice pathname 0 (-1)), pathname)
    else (none, pathname)
  | .RedirectWith =>
    if pathname ≠ ['/'] ∧ ¬ endsWithSlash pathname then
      (some (pathname ++ ['/']), pathname)
    else (none, pathname)
  | .RewriteWithout =>
    if pathname ≠ ['/'] ∧ endsWithSlash pathname then
      (none, jsSlice pathname 0 (-1))
    else (none, pathname)
  | .RewriteWith =>
    if pathname ≠ ['/'] ∧ ¬ endsWithSlash pathname then
      (none, pathname ++ ['/'])
    else (none, pathname)

/-- How one call of the generated `fetch` ends: an HTTP redirect, a response
or no response handed back from `invoke`, or the JSON 500 body built in the
top-level `catch`. -/
inductive FetchResult where
  | redirect (location : List Char)
  | response (r : InvokeResp)
  | noResponse
  | errorJson (status : Nat) (message : String) (stack : String)
deriving DecidableEq, Repr

/-- The part of the generated `fetch` after the trailing-slash prologue:
`invoke` the matched route and convert an escaping error into the JSON 500
response, whose message and stack carry detail only when `import.meta.env.DEV`
is set (index.ts lines 396-420). -/
def invokePart (dev has404 has500 : Bool) (route : Option HandlerOutcome) (acceptsHtml : Bool) :
    FetchResult :=
  match (invoke has404 has500 route acceptsHtml).1 with
  | .response r => FetchResult.response r
  | .noResponse => FetchResult.noResponse
  | .thrown e =>
    FetchResult.errorJson 500
      (if dev then "Internal Server Error (" ++ e.message ++ ")" else "Internal Server Error")
      (if dev then "This will only be seen in development mode\n\n" ++ e.stack else "")

/-- Semantics of the generated `fetch(request, platform)` (index.ts lines
361-420).  `matchFn` abstracts `match(request.method, pathname)` combined with
what the matched route's dispatch chain does on this request. -/
def fetchFn (dev : Bool) (policy : TrailingSlashPolicy) (has404 has500 : Bool)
    (matchFn : List Char → Option HandlerOutcome) (acceptsHtml : Bool) (pathname : List Char) :
    FetchResult :=
  match applyTrailingSlash policy pathname with
  | (some target, _) => FetchResult.redirect target
  | (none, effective) => invokePart dev has404 has500 (matchFn effective) acceptsHtml

/-- The default `RouterOptions` value of `renderRouter`'s optional parameter
(index.ts lines 242-244). -/
def defaultRouterOptions : RouterOptions :=
  { trailingSlashes := TrailingSlashPolicy.RedirectWithout }

/-- The compiled router abstracted by the data the generated functions close
over: the per-verb route lists handed to `createRouteTrie`, whether the 404 /
500 special pages were compiled in, and the trailing-slash policy baked into
`fetch`. -/
structure RouterArtifact where
  verbMatchers : List (HttpVerb × List Route)
  has404 : Bool
  has500 : Bool
  trailingSlashes : TrailingSlashPolicy
deriving Repr

/-- The `httpVerbs` constant iterated by `renderRouter`.  Modelled from the
spec: the constant lives in `../constants`, which is not part of the shown
source. -/
def httpVerbs : List HttpVerb :=
  [HttpVerb.get, HttpVerb.post, HttpVerb.put, HttpVerb.delete,
   HttpVerb.patch, HttpVerb.options, HttpVerb.head]

/-- `renderRouter` with an explicit options argument (index.ts lines 240-423):
per verb, the routes supporting it are collected (`routes.list.filter(route =>
hasVerb(route, verb))`) and a matcher is emitted when the list is non-empty;
the 404 / 500 blocks and the trailing-slash prologue are baked in. -/
def renderRouterWith (routes : BuiltRoutes) (options : RouterOptions) : RouterArtifact :=
  { verbMatchers := httpVerbs.filterMap (fun v =>
      let filtered := routes.list.filter (fun r => hasVerb r v)
      if filtered.isEmpty then none else some (v, filtered))
  , has404 := routes.notFoundPage.isSome
  , has500 := routes.errorPage.isSome
  , trailingSlashes := options.trailingSlashes }

/-- `renderRouter` called without an explicit `RouterOptions` argument: the
TypeScript default parameter `{ trailingSlashes: "RedirectWithout" }` applies. -/
def renderRouter (routes : BuiltRoutes) : RouterArtifact :=
  renderRouterWith routes defaultRouterOptions

/-- A `RouteTrie` node as consumed by `writeRouterVerb`: its key (the literal
segment text under which the parent stores it), an optional terminal route, the
literal children (the values of the `static` map, in insertion order, each
carrying its key), an optional dynamic child and an optional catch-all route. -/
inductive RouteTrie where
  | mk (key : List Char) (route : Option Route) (static : List RouteTrie)
       (dynamic : Option RouteTrie) (catchAll : Option Route)

/-- The literal segment key of a trie node. -/
def RouteTrie.key : RouteTrie → List Char
  | .mk k _ _ _ _ => k

/-- The terminal route of a trie node. -/
def RouteTrie.route : RouteTrie → Option Route
  | .mk _ r _ _ _ => r

/-- The literal children of a trie node. -/
def RouteTrie.static : RouteTrie → List RouteTrie
  | .mk _ _ s _ _ => s

/-- The dynamic child of a trie node. -/
def RouteTrie.dynamic : RouteTrie → Option RouteTrie
  | .mk _ _ _ d _ => d

/-- The catch-all route of a trie node. -/
def RouteTrie.catchAllR : RouteTrie → Option Route
  | .mk _ _ _ _ c => c

/-- A match result of the generated matcher: the object literal
`{ handler: <verb><index>, params: ..., meta: ... }` rendered by
`renderMatch`, abstracted to the matched route and the evaluated params
entries (name, captured text). -/
structure MatchResult where
  route : Route
  params : List (String × List Char)
deriving DecidableEq, Repr

/-- The positional entries of `renderParamsInfo`: every `{ name, index }` with
`index >= 0` contributes `name: s<index+1>`, where `s<n>` is looked up among
the segment captures in scope. -/
def evalParamsPositional (ps : List ParamInfo) (env : List (Nat × List Char)) :
    List (String × List Char) :=
  ps.filterMap (fun p =>
    if 0 ≤ p.index then some (p.name, (env.lookup (p.index.toNat + 1)).getD []) else none)

/-- The catch-all name `renderParamsInfo` retains: the last param with a
negative index (the loop overwrites `catchAll` on every such entry), or the
empty string when there is none. -/
def evalCatchAllName (ps : List ParamInfo) : String :=
  ps.foldl (fun acc p => if p.index < 0 then p.name else acc) ""

/-- `renderParamsInfo(params, pathIndex)` evaluated on a concrete pathname:
positional captures in declaration order, then — only when a path index was
supplied and the catch-all name is non-empty (`if (catchAll)`) — the entry
`name: pathname.slice(pathIndex)`. -/
def evalParamsInfo (ps : List ParamInfo) (pathname : List Char)
    (env : List (Nat × List Char)) (pathIndex : Option Nat) : List (String × List Char) :=
  match pathIndex with
  | none => evalParamsPositional ps env
  | some pi =>
    let ca := evalCatchAllName ps
    if ca = "" then evalParamsPositional ps env
    else evalParamsPositional ps env ++ [(ca, pathname.drop pi)]

/-- `renderMatch(verb, route, pathIndex)` evaluated on a concrete pathname:
the params object is `{}` when the route has no params
(`route.params?.length ? ... : "{}"`). -/
def evalMatch (r : Route) (pathname : List Char) (env : List (Nat × List Char))
    (pathIndex : Option Nat) : MatchResult :=
  { route := r
  , params := if r.params.isEmpty then []
              else evalParamsInfo r.params pathname env pathIndex }

/-- The terminal checks of the emitted "last segment" branch: the `switch` (or
single `if`) over the literal children that carry a terminal route, comparing
`value.toLowerCase()` against each child's key in order (index.ts lines
477-498). -/
def findTerminal (cs : List RouteTrie) (lowered : List Char) : Option Route :=
  match cs with
  | [] => none
  | c :: rest =>
    match c.route with
    | some r => if lowered == c.key then some r else findTerminal rest lowered
    | none => findTerminal rest lowered

/-- The whole "last segment" branch (`if (!i || i === len) { ... }`, index.ts
lines 466-507) evaluated at runtime: compute `value = pathname.slice(offset,
i ? -1 : len)`, bind it to `s<next>` when the dynamic child has a terminal
route, try the literal terminals first, then the dynamic terminal provided the
segment is non-empty (`if (value) return ...`). -/
def terminalStep (statics : List RouteTrie) (dynRoute : Option Route) (pathname : List Char)
    (next off i : Nat) (env : List (Nat × List Char)) : Option MatchResult :=
  let value := jsSlice pathname off (if i ≠ 0 then (-1 : Int) else (pathname.length : Int))
  let env1 := if dynRoute.isSome then (next, value) :: env else env
  match findTerminal statics (jsToLower value) with
  | some r => some (evalMatch r pathname env1 none)
  | none =>
    match dynRoute with
    | some r => if value.isEmpty then none else some (evalMatch r pathname env1 none)
    | none => none

/-- Whether the "descend" branch declares `const s<next> = ...` (index.ts line
518: `if (dynamic?.static || dynamic?.dynamic)`). -/
def dynBindsSegment : Option RouteTrie → Bool
  | some d => !d.static.isEmpty || d.dynamic.isSome
  | none => false

/-- Whether the emitted code descends into the dynamic child at all (index.ts
line 552: `if (dynamic?.static || dynamic?.dynamic || dynamic?.catchAll)`). -/
def dynDescends : Option RouteTrie → Bool
  | some d => !d.static.isEmpty || d.dynamic.isSome || d.catchAllR.isSome
  | none => false

/-- One unfolding of the matcher fragment `writeRouterVerb` emits for a trie
node (index.ts lines 425-573), parameterized by the interpretations `rv` / `rc`
of the recursively emitted fragments (deeper nodes and child `switch` cases).
`level` and the offset mirror the generator's `level` and `offset` arguments;
`offIsVar` records whether the offset expression in the emitted code is the
parent's `i<level>` variable (a string offset) or a numeric literal — this
decides how the offsets of literal children are computed, which is observable
when a `switch` case falls through.  `env` maps the numbers of the `s<n>`
capture variables in scope to their values.  `none` means the fragment falls
through (at the top level: `return null`). -/
def runVerbStep
    (rv : RouteTrie → List Char → Nat → Nat → Bool → List (Nat × List Char) →
      Option MatchResult)
    (rc : List RouteTrie → List Char → Nat → Nat → Nat → Bool → List Char → Bool →
      List (Nat × List Char) → Option MatchResult)
    (t : RouteTrie) (pathname : List Char) (level off : Nat) (offIsVar : Bool)
    (env : List (Nat × List Char)) : Option MatchResult :=
  match t with
  | .mk _k route statics dyn catchAll =>
    let len := pathname.length
    let i := jsIndexOfPlus1 pathname '/' off
    let body : Option MatchResult :=
      if statics.isEmpty && dyn.isNone then none
      else if i = 0 ∨ i = len then
        terminalStep statics (dyn.bind RouteTrie.route) pathname (level + 1) off i env
      else
        let value := jsSlice pathname off ((i : Int) - 1)
        let env2 := if dynBindsSegment dyn then (level + 1, value) :: env else env
        (rc statics pathname (level + 1) i off offIsVar (jsToLower value) false env2).orElse
          (fun _ =>
            match dyn with
            | some d =>
              if dynDescends (some d) && !value.isEmpty then
                rv d pathname (level + 1) i true env2
              else none
            | none => none)
    let tail : Option MatchResult :=
      match catchAll with
      | some c => some (evalMatch c pathname env (some off))
      | none => none
    match level, route with
    | 0, some r =>
      if len = 1 then some (evalMatch r pathname env none)
      else body.orElse (fun _ => tail)
    | 0, none =>
      if 1 < len then body.orElse (fun _ => tail) else tail
    | _ + 1, _ => body.orElse (fun _ => tail)

/-- One unfolding of the `switch` (or single `if`) over the literal children
that continue deeper (index.ts lines 524-550), including JavaScript's case
fall-through: a case body that falls through continues into the next case's
body.  Children are the elements of `static` with further structure; each case
body's offset is its own `offset + key.length + 1` when the offset is a
numeric literal, and the shared `i<next>` variable otherwise. -/
def runCasesStep
    (rv : RouteTrie → List Char → Nat → Nat → Bool → List (Nat × List Char) →
      Option MatchResult)
    (rc : List RouteTrie → List Char → Nat → Nat → Nat → Bool → List Char → Bool →
      List (Nat × List Char) → Option MatchResult)
    (cs : List RouteTrie) (pathname : List Char) (next i off : Nat) (offIsVar : Bool)
    (lowered : List Char) (active : Bool) (env : List (Nat × List Char)) :
    Option MatchResult :=
  match cs with
  | [] => none
  | c :: rest =>
    if !c.static.isEmpty || c.dynamic.isSome || c.catchAllR.isSome then
      if active || lowered == c.key then
        (rv c pathname next (if offIsVar then i else off + c.key.length + 1)
            offIsVar env).orElse
          (fun _ => rc rest pathname next i off offIsVar lowered true env)
      else rc rest pathname next i off offIsVar lowered active env
    else rc rest pathname next i off offIsVar lowered active env

mutual

/-- The matcher semantics: iterate `runVerbStep` / `runCasesStep`.  `fuel` is a
proof artifact bounding the recursion depth; the generated code recurses
structurally over the trie, so any fuel of at least the trie's weight is
enough and the `fuel = 0` case is never reached. -/
def runVerb (fuel : Nat) (t : RouteTrie) (pathname : List Char) (level off : Nat)
    (offIsVar : Bool) (env : List (Nat × List Char)) : Option MatchResult :=
  match fuel with
  | 0 => none
  | fuel + 1 => runVerbStep (runVerb fuel) (runCases fuel) t pathname level off offIsVar env

/-- The `switch`-cases semantics: iterate `runCasesStep`. -/
def runCases (fuel : Nat) (cs : List RouteTrie) (pathname : List Char) (next i off : Nat)
    (offIsVar : Bool) (lowered : List Char) (active : Bool)
    (env : List (Nat × List Char)) : Option MatchResult :=
  match fuel with
  | 0 => none
  | fuel + 1 =>
    runCasesStep (runVerb fuel) (runCases fuel) cs pathname next i off offIsVar lowered
      active env

end

mutual

/-- A size measure on tries, used only to supply sufficient fuel to `runVerb`. -/
def RouteTrie.weight : RouteTrie → Nat
  | .mk _ _ statics dyn _ =>
    1 + weightList statics + (match dyn with | some d => 1 + d.weight | none => 1)

/-- Combined size of a list of tries. -/
def weightList : List RouteTrie → Nat
  | [] => 1
  | c :: rest => 1 + c.weight + weightList rest

end

/-- The matcher body emitted for one verb's `case` in the generated `match`
(index.ts lines 287-295): run the trie from the root with `level = 0` and
offset `1`, with enough fuel for the whole trie. -/
def matchVerb (t : RouteTrie) (pathname : List Char) : Option MatchResult :=
  runVerb t.weight t pathname 0 1 false []

/-- A handler file implementing `get` and `post`, used by the concrete
witness routes below. -/
def sampleHandlerFile : RoutableFile :=
  { importPath := "src/routes/item/+handler.ts"
  , relativePath := "src/routes/item/+handler.ts"
  , verbs := some [HttpVerb.get, HttpVerb.post] }

/-- A page file, used by the concrete witness routes below. -/
def samplePageFile : RoutableFile :=
  { importPath := "src/routes/item/+page.marko"
  , relativePath := "src/routes/item/+page.marko"
  , verbs := none }

/-- Two middleware bindings with distinct ids. -/
def sampleMw1 : MiddlewareBinding := { id := 1, importPath := "src/routes/+middleware.ts" }

/-- Second sample middleware binding. -/
def sampleMw2 : MiddlewareBinding := { id := 2, importPath := "src/routes/item/+middleware.ts" }

/-- A static route `/item/edit`. -/
def sampleStaticRoute : Route :=
  { key := "item_edit", path := "/item/edit", params := []
  , handler := some sampleHandlerFile, page := none, layouts := []
  , middleware := [], meta := none, index := 0 }

/-- A dynamic route `/item/$id` whose single param is the second segment. -/
def sampleDynRoute : Route :=
  { key := "item_id", path := "/item/$id", params := [{ name := "id", index := 1 }]
  , handler := some sampleHandlerFile, page := none, layouts := []
  , middleware := [], meta := none, index := 1 }

/-- A route with a page, a `get`+`post` handler and two middleware. -/
def samplePageRoute : Route :=
  { key := "item", path := "/item", params := []
  , handler := some sampleHandlerFile, page := some samplePageFile, layouts := []
  , middleware := [sampleMw1, sampleMw2], meta := none, index := 2 }

/-- A route with a handler and middleware but no page. -/
def sampleHandlerRoute : Route :=
  { key := "api", path := "/api", params := []
  , handler := some sampleHandlerFile, page := none, layouts := []
  , middleware := [sampleMw1, sampleMw2], meta := none, index := 3 }

/-- A route with neither handler nor page (invalid by construction). -/
def sampleEmptyRoute : Route :=
  { key := "broken", path := "/broken", params := []
  , handler := none, page := none, layouts := []
  , middleware := [], meta := none, index := 4 }

/-- The trie node for the `item` segment with a literal child `edit` (terminal
`/item/edit`) and a dynamic child (terminal `/item/$id`). -/
def sampleEditNode : RouteTrie := RouteTrie.mk "edit".data (some sampleStaticRoute) [] none none

/-- The dynamic child node holding the terminal `/item/$id`. -/
def sampleDynNode : RouteTrie := RouteTrie.mk "$id".data (some sampleDynRoute) [] none none

/-- The `item` node combining the literal and dynamic children. -/
def sampleItemNode : RouteTrie :=
  RouteTrie.mk "item".data none [sampleEditNode] (some sampleDynNode) none


theorem wrapCharStart_iff (c : Char) :
    (!(('A' ≤ c && c ≤ 'Z') || ('a' ≤ c && c ≤ 'z') || c == '_' || c == '$')) = true
      ↔ ¬(('A' ≤ c ∧ c ≤ 'Z') ∨ ('a' ≤ c ∧ c ≤ 'z') ∨ c = '_' ∨ c = '$') := by
  simp only [Bool.not_eq_true', ← Bool.not_eq_true, Bool.or_eq_true, Bool.and_eq_true,
    decide_eq_true_eq, beq_iff_eq]
  tauto

theorem wrapCharAll_iff (c : Char) :
    (!(('A' ≤ c && c ≤ 'Z') || ('a' ≤ c && c ≤ 'z') || ('0' ≤ c && c ≤ '9')
        || c == '$' || c == '_')) = true
      ↔ ¬(('A' ≤ c ∧ c ≤ 'Z') ∨ ('a' ≤ c ∧ c ≤ 'z') ∨ ('0' ≤ c ∧ c ≤ '9')
          ∨ c = '$' ∨ c = '_') := by
  simp only [Bool.not_eq_true', ← Bool.not_eq_true, Bool.or_eq_true, Bool.and_eq_true,
    decide_eq_true_eq, beq_iff_eq]
  tauto

theorem wrapPropertyNameTest_iff (name : List Char) :
    wrapPropertyNameTest name = true ↔ claimInvalidIdent name := by
  unfold wrapPropertyNameTest claimInvalidIdent
  cases name with
  | nil => simp
  | cons c cs =>
    rw [Bool.or_eq_true, List.any_eq_true]
    constructor
    · rintro (h | ⟨x, hx, h⟩)
      · exact Or.inl ⟨c, cs, rfl, (wrapCharStart_iff c).mp h⟩
      · exact Or.inr ⟨x, hx, (wrapCharAll_iff x).mp h⟩
    · rintro (⟨a, as, heq, h⟩ | ⟨x, hx, h⟩)
      · cases heq; exact Or.inl ((wrapCharStart_iff c).mpr h)
      · exact Or.inr ⟨x, hx, (wrapCharAll_iff x).mpr h⟩

/-- C10: in every generated params object and params type, a parameter name
that is not a valid JavaScript identifier (first character outside letters,
underscore, dollar; or any character outside letters, digits, dollar,
underscore) is emitted single-quoted by `wrapPropertyName`, and every valid
identifier name is emitted bare. -/
theorem c10_wrap_property_name (name : List Char) :
    (claimInvalidIdent name → wrapPropertyName name = '\'' :: (name ++ ['\''])) ∧
    (¬ claimInvalidIdent name → wrapPropertyName name = name) := by
  constructor
  · intro h
    have ht : wrapPropertyNameTest name = true := (wrapPropertyNameTest_iff name).mpr h
    simp [wrapPropertyName, ht]
  · intro h
    have ht : wrapPropertyNameTest name = false := by
      cases hb : wrapPropertyNameTest name
      · rfl
      · exact absurd ((wrapPropertyNameTest_iff name).mp hb) h
    simp [wrapPropertyName, ht]

/-- Witness for C10 at the concrete invalid name `foo-bar`. -/
theorem c10_wrap_property_name_witness :
    wrapPropertyName "foo-bar".data = '\'' :: ("foo-bar".data ++ ['\'']) :=
  (c10_wrap_property_name "foo-bar".data).1
    (Or.inr ⟨'-', by decide, by decide⟩)

/-- C9: `renderRouter` called without an explicit `RouterOptions` argument
compiles with the trailing-slash policy `RedirectWithout` (the TypeScript
default parameter). -/
theorem c9_default_options_redirect_without (routes : BuiltRoutes) :
    (renderRouter routes).trailingSlashes = TrailingSlashPolicy.RedirectWithout := rfl

/-- C4 counterexample: with no 404-page binding compiled in, the generated
`invoke` has no `else` branch on `if (route)`, so a request with no matched
route does not synthesize the empty params/meta context (the claim asserts it
always does). -/
theorem c4_counterexample_no404_params :
    ¬ ((invoke false false none true).2 = some ParamsSource.empty) := by decide

/-- C4 amended: `NotHandled` produces no response; `NotMatched` or a falsy
result falls through to the not-found fallback (the 404 page only when the
binding exists and the client accepts HTML); any other thrown error is fatal
(500 page when bound and HTML accepted, otherwise rethrown); and the empty
params/meta context is synthesized for an unmatched route only when a 404
binding exists — otherwise the context is left untouched and no response is
produced. -/
theorem c4_invoke_signals_amended (h4 h5 ah : Bool) (r : Resp) (e : JsError) :
    (invoke h4 h5 (some HandlerOutcome.throwNotHandled) ah).1 = InvokeResult.noResponse ∧
    (invoke h4 h5 (some (HandlerOutcome.ok none)) ah).1 = notFoundFallback h4 ah ∧
    (invoke h4 h5 (some HandlerOutcome.throwNotMatched) ah).1 = notFoundFallback h4 ah ∧
    (invoke h4 h5 (some (HandlerOutcome.ok (some r))) ah).1
      = InvokeResult.response (InvokeResp.fromHandler r) ∧
    (invoke h4 h5 (some (HandlerOutcome.throwErr e)) ah).1
      = (if h5 && ah then InvokeResult.response (InvokeResp.errorPage e)
         else InvokeResult.thrown e) ∧
    (h4 = true → invoke h4 h5 none ah = (notFoundFallback h4 ah, some ParamsSource.empty)) ∧
    (h4 = false → invoke h4 h5 none ah = (InvokeResult.noResponse, none)) := by
  refine ⟨rfl, rfl, rfl, rfl, rfl, ?_, ?_⟩ <;> intro h <;> simp [invoke, h]

/-- Witness for the amended C4 at concrete flag values. -/
theorem c4_invoke_signals_amended_witness :
    invoke true false none true = (notFoundFallback true true, some ParamsSource.empty) :=
  ((c4_invoke_signals_amended true false true Resp.empty ⟨"", ""⟩).2.2.2.2.2.1) rfl

/-- C7: rendering a route template without a page, rendering a route entry
with no supported verb, and compiling a dispatch function for a verb with
neither a `get`-page fallback nor a handler each fail with a construction
error naming the route key (and, for the dispatch case, the verb); no
artifact is returned in any of these cases. -/
theorem c7_construction_errors :
    (∀ route : Route, route.page = none →
      renderRouteTemplate route
        = Except.error ("Route " ++ route.key ++ " has no page to render")) ∧
    (∀ route : Route, getVerbs route = none →
      renderRouteEntry route
        = Except.error ("Route " ++ route.key
            ++ " doesn't have a handler or page for any HTTP verbs")) ∧
    (∀ (route : Route) (verb : HttpVerb),
      (route.page.isSome && verb == HttpVerb.get) = false → route.handler = none →
      writeRouteEntryHandler route verb
        = Except.error ("Route " ++ route.key ++ " has no handler for "
            ++ verbStr verb ++ " requests")) := by
  refine ⟨?_, ?_, ?_⟩
  · intro route h
    simp [renderRouteTemplate, h]
  · intro route h
    simp [renderRouteEntry, h]
  · intro route verb h hh
    simp [writeRouteEntryHandler, h, hh]

/-- Witness for C7 at the concrete invalid route. -/
theorem c7_construction_errors_witness :
    renderRouteTemplate sampleEmptyRoute
      = Except.error ("Route " ++ sampleEmptyRoute.key ++ " has no page to render") ∧
    renderRouteEntry sampleEmptyRoute
      = Except.error ("Route " ++ sampleEmptyRoute.key
          ++ " doesn't have a handler or page for any HTTP verbs") ∧
    writeRouteEntryHandler sampleEmptyRoute HttpVerb.post
      = Except.error ("Route " ++ sampleEmptyRoute.key ++ " has no handler for "
          ++ verbStr HttpVerb.post ++ " requests") :=
  ⟨c7_construction_errors.1 sampleEmptyRoute rfl,
   c7_construction_errors.2.1 sampleEmptyRoute rfl,
   c7_construction_errors.2.2 sampleEmptyRoute HttpVerb.post rfl rfl⟩

theorem jsSlice_zero_neg_one (p : List Char) : jsSlice p 0 (-1) = p.dropLast := by
  unfold jsSlice
  simp only [List.drop_zero]
  rw [List.dropLast_eq_take]
  congr 1
  omega

/-- C5: for every pathname other than `/`, `RedirectWithout` redirects a
trailing-slash path to the path without its trailing slash, `RedirectWith`
redirects a slash-less path to the path with one appended, and the two
rewrite policies never redirect but match on the silently normalized path;
the pathname `/` is passed through unmodified, with no redirect, under every
policy. -/
theorem c5_trailing_slash_policy (dev : Bool) (pol : TrailingSlashPolicy) (h4 h5 : Bool)
    (mf : List Char → Option HandlerOutcome) (ah : Bool) (p : List Char) :
    (p ≠ ['/'] →
      (endsWithSlash p = true →
        fetchFn dev TrailingSlashPolicy.RedirectWithout h4 h5 mf ah p
          = FetchResult.redirect p.dropLast) ∧
      (endsWithSlash p = false →
        fetchFn dev TrailingSlashPolicy.RedirectWith h4 h5 mf ah p
          = FetchResult.redirect (p ++ ['/'])) ∧
      (fetchFn dev TrailingSlashPolicy.RewriteWithout h4 h5 mf ah p
          = invokePart dev h4 h5 (mf (if endsWithSlash p then p.dropLast else p)) ah ∧
        ∀ loc, fetchFn dev TrailingSlashPolicy.RewriteWithout h4 h5 mf ah p
          ≠ FetchResult.redirect loc) ∧
      (fetchFn dev TrailingSlashPolicy.RewriteWith h4 h5 mf ah p
          = invokePart dev h4 h5 (mf (if endsWithSlash p then p else p ++ ['/'])) ah ∧
        ∀ loc, fetchFn dev TrailingSlashPolicy.RewriteWith h4 h5 mf ah p
          ≠ FetchResult.redirect loc)) ∧
    (fetchFn dev pol h4 h5 mf ah ['/'] = invokePart dev h4 h5 (mf ['/']) ah ∧
      ∀ loc, fetchFn dev pol h4 h5 mf ah ['/'] ≠ FetchResult.redirect loc) := by
  constructor
  · intro hp
    refine ⟨?_, ?_, ⟨?_, ?_⟩, ⟨?_, ?_⟩⟩
    · intro he
      simp [fetchFn, applyTrailingSlash, hp, he, jsSlice_zero_neg_one]
    · intro he
      simp [fetchFn, applyTrailingSlash, hp, he]
    · cases he : endsWithSlash p <;>
        simp [fetchFn, applyTrailingSlash, hp, he, jsSlice_zero_neg_one]
    · intro loc
      cases he : endsWithSlash p <;>
        simp [fetchFn, applyTrailingSlash, hp, he, invokePart] <;>
        split <;> simp
    · cases he : endsWithSlash p <;>
        simp [fetchFn, applyTrailingSlash, hp, he]
    · intro loc
      cases he : endsWithSlash p <;>
        simp [fetchFn, applyTrailingSlash, hp, he, invokePart] <;>
        split <;> simp
  · constructor
    · cases pol <;> simp [fetchFn, applyTrailingSlash]
    · intro loc
      cases pol <;> simp [fetchFn, applyTrailingSlash, invokePart] <;> split <;> simp

/-- Witness for C5: `/foo/` under `RedirectWithout` redirects to `/foo`. -/
theorem c5_trailing_slash_policy_witness :
    fetchFn false TrailingSlashPolicy.RedirectWithout false false (fun _ => none) false
      "/foo/".data = FetchResult.redirect "/foo/".data.dropLast :=
  ((c5_trailing_slash_policy false TrailingSlashPolicy.RedirectWithout false false
      (fun _ => none) false "/foo/".data).1 (by decide)).1 rfl

/-- C6: an ordinary error thrown during invocation is rendered to the 500 page
(status 500, error attached) exactly when a 500-page binding exists and the
client accepts HTML; otherwise `invoke` rethrows it and the generated `fetch`
converts it to a JSON response with status 500 whose message and stack carry
detail only in development mode. -/
theorem c6_fatal_error_propagation (dev : Bool) (pol : TrailingSlashPolicy) (h4 h5 : Bool)
    (mf : List Char → Option HandlerOutcome) (ah : Bool) (p : List Char) (e : JsError)
    (hm : mf (applyTrailingSlash pol p).2 = some (HandlerOutcome.throwErr e))
    (hr : (applyTrailingSlash pol p).1 = none) :
    ((h5 && ah) = true →
      (invoke h4 h5 (some (HandlerOutcome.throwErr e)) ah).1
        = InvokeResult.response (InvokeResp.errorPage e) ∧
      invokeRespStatus (InvokeResp.errorPage e) = some 500 ∧
      fetchFn dev pol h4 h5 mf ah p = FetchResult.response (InvokeResp.errorPage e)) ∧
    ((h5 && ah) = false →
      (invoke h4 h5 (some (HandlerOutcome.throwErr e)) ah).1 = InvokeResult.thrown e ∧
      fetchFn dev pol h4 h5 mf ah p
        = FetchResult.errorJson 500
            (if dev then "Internal Server Error (" ++ e.message ++ ")"
             else "Internal Server Error")
            (if dev then "This will only be seen in development mode\n\n" ++ e.stack
             else "")) := by
  have hpair : applyTrailingSlash pol p = (none, (applyTrailingSlash pol p).2) := by
    rw [← hr]
  constructor
  · intro h
    refine ⟨by simp [invoke, h], rfl, ?_⟩
    unfold fetchFn
    rw [hpair]
    simp [invokePart, hm, invoke, h]
  · intro h
    refine ⟨by simp [invoke, h], ?_⟩
    unfold fetchFn
    rw [hpair]
    simp [invokePart, hm, invoke, h]

/-- Witness for C6: a `boom` error with no 500 binding and a non-HTML client
is rethrown out of `invoke` and converted to the generic JSON 500 by `fetch`. -/
theorem c6_fatal_error_propagation_witness :
    (invoke false false (some (HandlerOutcome.throwErr ⟨"boom", "trace"⟩)) false).1
      = InvokeResult.thrown ⟨"boom", "trace"⟩ ∧
    fetchFn false TrailingSlashPolicy.RewriteWithout false false
      (fun _ => some (HandlerOutcome.throwErr ⟨"boom", "trace"⟩)) false "/x".data
      = FetchResult.errorJson 500 "Internal Server Error" "" :=
  (c6_fatal_error_propagation false TrailingSlashPolicy.RewriteWithout false false
      (fun _ => some (HandlerOutcome.throwErr ⟨"boom", "trace"⟩)) false "/x".data
      ⟨"boom", "trace"⟩ rfl rfl).2 rfl

theorem mwLoopRev_resolve (rest : List MiddlewareBinding) (a : MiddlewareBinding) :
    ∀ (inner : ContName) (env : List (ContName × Step)) (innerSem : Step),
    resolveIn env inner = some innerSem →
    evalExpr (buildEnv (mwLoopRev (a :: rest) inner).1 env) (mwLoopRev (a :: rest) inner).2
      = some ((a :: rest).foldl (fun acc m => Step.call (LayerRef.mwareL m.id) acc) innerSem) := by
  induction rest generalizing a with
  | nil =>
    intro inner env innerSem h
    simp [mwLoopRev, buildEnv, evalExpr, h]
  | cons b rest ih =>
    intro inner env innerSem h
    have hstep : resolveIn
        ((ContName.mwareC a.id, Step.call (LayerRef.mwareL a.id) innerSem) :: env)
        (ContName.mwareC a.id) = some (Step.call (LayerRef.mwareL a.id) innerSem) := by
      simp [resolveIn, List.lookup]
    have hrec := ih b (ContName.mwareC a.id)
        ((ContName.mwareC a.id, Step.call (LayerRef.mwareL a.id) innerSem) :: env)
        (Step.call (LayerRef.mwareL a.id) innerSem) hstep
    simp only [mwLoopRev]
    rw [List.foldl_cons]
    simp only [buildEnv, evalExpr, h, Option.map_some']
    exact hrec

theorem runStep_mwWrap (beh : LayerRef → Option Resp) (mws : List MiddlewareBinding)
    (inner : Step) (h : ∀ m ∈ mws, beh (LayerRef.mwareL m.id) = none) :
    runStep beh (mwWrap mws inner) = runStep beh inner := by
  induction mws with
  | nil => rfl
  | cons m ms ih =>
    have hm := h m (List.mem_cons_self m ms)
    have hrest : ∀ x ∈ ms, beh (LayerRef.mwareL x.id) = none :=
      fun x hx => h x (List.mem_cons_of_mem m hx)
    simp only [mwWrap, List.foldr_cons, runStep, hm]
    exact ih hrest

theorem entryChain_ok (route : Route) (verb : HttpVerb) (ec : EntryCode)
    (hok : writeRouteEntryHandler route verb = Except.ok ec) :
    entryChain ec = some (mwWrap route.middleware (innerStep route verb)) := by
  unfold writeRouteEntryHandler at hok
  by_cases hpg : (route.page.isSome && verb == HttpVerb.get) = true
  · have hverb : verb = HttpVerb.get := beq_iff_eq.mp ((Bool.and_eq_true _ _).mp hpg).2
    have hp : route.page.isSome = true := ((Bool.and_eq_true _ _).mp hpg).1
    subst hverb
    rw [if_pos hpg] at hok
    by_cases hhg : handlerHasGet route = true
    · rw [if_pos hhg] at hok
      cases hmw : route.middleware with
      | nil =>
        rw [hmw] at hok
        norm_num at hok
        cases hok
        simp [entryChain, buildEnv, evalExpr, resolveIn, List.lookup, innerStep, hp, hhg,
          hmw, mwWrap]
      | cons m ms =>
        rw [hmw] at hok
        norm_num at hok
        cases hok
        cases hrev : ms.reverse ++ [m] with
        | nil => simp at hrev
        | cons a rest =>
          have hstep : resolveIn
              [(ContName.handlerC HttpVerb.get,
                  Step.call (LayerRef.handlerL HttpVerb.get) Step.pageStep),
               (ContName.pageC, Step.pageStep)]
              (ContName.handlerC HttpVerb.get)
              = some (Step.call (LayerRef.handlerL HttpVerb.get) Step.pageStep) := by
            simp [resolveIn, List.lookup]
          have hres := mwLoopRev_resolve rest a (ContName.handlerC HttpVerb.get) _ _ hstep
          have hin : innerStep route HttpVerb.get
              = Step.call (LayerRef.handlerL HttpVerb.get) Step.pageStep := by
            simp [innerStep, hp, hhg]
          have hfold : mwWrap (m :: ms) (Step.call (LayerRef.handlerL HttpVerb.get) Step.pageStep)
              = (a :: rest).foldl (fun acc mw => Step.call (LayerRef.mwareL mw.id) acc)
                  (Step.call (LayerRef.handlerL HttpVerb.get) Step.pageStep) := by
            rw [mwWrap, ← List.foldl_reverse, List.reverse_cons, hrev]
          rw [hin, hfold]
          exact hres
    · rw [if_neg hhg] at hok
      have hhg' : handlerHasGet route = false := Bool.not_eq_true _ ▸ eq_false_of_ne_true hhg
      cases hmw : route.middleware with
      | nil =>
        rw [hmw] at hok
        norm_num at hok
        cases hok
        simp [entryChain, buildEnv, evalExpr, resolveIn, innerStep, hp, hhg', hmw, mwWrap]
      | cons m ms =>
        rw [hmw] at hok
        norm_num at hok
        cases hok
        cases hrev : ms.reverse ++ [m] with
        | nil => simp at hrev
        | cons a rest =>
          have hstep : resolveIn [(ContName.pageC, Step.pageStep)] ContName.pageC
              = some Step.pageStep := by
            simp [resolveIn, List.lookup]
          have hres := mwLoopRev_resolve rest a ContName.pageC _ _ hstep
          have hin : innerStep route HttpVerb.get = Step.pageStep := by
            simp [innerStep, hp, hhg']
          have hfold : mwWrap (m :: ms) Step.pageStep
              = (a :: rest).foldl (fun acc mw => Step.call (LayerRef.mwareL mw.id) acc)
                  Step.pageStep := by
            rw [mwWrap, ← List.foldl_reverse, List.reverse_cons, hrev]
          rw [hin, hfold]
          exact hres
  · have hpg' : (route.page.isSome && verb == HttpVerb.get) = false :=
      Bool.not_eq_true _ ▸ eq_false_of_ne_true hpg
    rw [if_neg hpg] at hok
    cases hh : route.handler with
    | none =>
      rw [hh] at hok
      cases hok
    | some hf =>
      rw [hh] at hok
      cases hmw : route.middleware with
      | nil =>
        rw [hmw] at hok
        norm_num at hok
        cases hok
        simp [entryChain, buildEnv, evalExpr, resolveIn, innerStep, hpg', hmw, mwWrap]
      | cons m ms =>
        rw [hmw] at hok
        norm_num at hok
        cases hok
        cases hrev : ms.reverse ++ [m] with
        | nil => simp at hrev
        | cons a rest =>
          have hstep : resolveIn
              [(ContName.handlerC verb,
                  Step.call (LayerRef.handlerL verb) Step.noContentStep)]
              (ContName.handlerC verb)
              = some (Step.call (LayerRef.handlerL verb) Step.noContentStep) := by
            simp [resolveIn, List.lookup]
          have hres := mwLoopRev_resolve rest a (ContName.handlerC verb) _ _ hstep
          have hin : innerStep route verb
              = Step.call (LayerRef.handlerL verb) Step.noContentStep := by
            simp [innerStep, hpg']
          have hfold : mwWrap (m :: ms) (Step.call (LayerRef.handlerL verb) Step.noContentStep)
              = (a :: rest).foldl (fun acc mw => Step.call (LayerRef.mwareL mw.id) acc)
                  (Step.call (LayerRef.handlerL verb) Step.noContentStep) := by
            rw [mwWrap, ← List.foldl_reverse, List.reverse_cons, hrev]
          rw [hin, hfold]
          exact hres

/-- C2: for every route with a non-empty middleware list and a supported verb,
the generated dispatch function composes the chain with the first declared
middleware outermost — its `call` is the function's returned expression,
wrapping all later middleware and the handler/page — and the last declared
middleware innermost, next to the handler/page step (`mwWrap` is a right
fold, so the last list element sits immediately around `innerStep`). -/
theorem c2_middleware_first_outermost (route : Route) (verb : HttpVerb) (ec : EntryCode)
    (m : MiddlewareBinding) (ms : List MiddlewareBinding)
    (hmw : route.middleware = m :: ms)
    (hok : writeRouteEntryHandler route verb = Except.ok ec) :
    (∃ nxt, ec.body = StepExpr.callE (LayerRef.mwareL m.id) nxt) ∧
    entryChain ec = some (mwWrap (m :: ms) (innerStep route verb)) := by
  have hchain := entryChain_ok route verb ec hok
  rw [hmw] at hchain
  refine ⟨?_, hchain⟩
  have hb := hchain
  unfold entryChain at hb
  rw [show mwWrap (m :: ms) (innerStep route verb)
      = Step.call (LayerRef.mwareL m.id) (mwWrap ms (innerStep route verb)) from rfl] at hb
  cases hbody : ec.body with
  | pageE =>
    rw [hbody] at hb
    simp only [evalExpr, Option.some.injEq] at hb
    cases hb
  | callE l n =>
    rw [hbody] at hb
    simp only [evalExpr] at hb
    cases hres : resolveIn (buildEnv ec.conts []) n with
    | none => rw [hres] at hb; simp at hb
    | some s =>
      rw [hres] at hb
      simp only [Option.map_some', Option.some.injEq] at hb
      injection hb with h1 h2
      subst h1
      exact ⟨n, rfl⟩

/-- Witness for C2: the page route with middleware ids 1 and 2 compiles to a
chain with `mware1` outermost and `mware2` wrapping the handler/page tail. -/
theorem c2_middleware_first_outermost_witness :
    entryChain
      ⟨[(ContName.pageC, StepExpr.pageE),
        (ContName.handlerC HttpVerb.get,
          StepExpr.callE (LayerRef.handlerL HttpVerb.get) ContName.pageC),
        (ContName.mwareC 2, StepExpr.callE (LayerRef.mwareL 2) (ContName.handlerC HttpVerb.get))],
       StepExpr.callE (LayerRef.mwareL 1) (ContName.mwareC 2)⟩
      = some (mwWrap (sampleMw1 :: [sampleMw2]) (innerStep samplePageRoute HttpVerb.get)) :=
  (c2_middleware_first_outermost samplePageRoute HttpVerb.get _ sampleMw1 [sampleMw2]
    rfl rfl).2

/-- C3: on a page route compiled for `get`, the handler (when it declares
`get`) is invoked with the page render as its next continuation, so a
non-empty handler result short-circuits the page render and a declining
handler falls back to the page; with no `get` handler the page render is the
default action. -/
theorem c3_page_get_handler_fallback (route : Route) (ec : EntryCode)
    (beh : LayerRef → Option Resp)
    (hp : route.page.isSome = true)
    (hok : writeRouteEntryHandler route HttpVerb.get = Except.ok ec)
    (hmw : ∀ m ∈ route.middleware, beh (LayerRef.mwareL m.id) = none) :
    (handlerHasGet route = true →
      entryChain ec = some (mwWrap route.middleware
        (Step.call (LayerRef.handlerL HttpVerb.get) Step.pageStep)) ∧
      runStep beh (mwWrap route.middleware
          (Step.call (LayerRef.handlerL HttpVerb.get) Step.pageStep))
        = (beh (LayerRef.handlerL HttpVerb.get)).getD Resp.pageHtml) ∧
    (handlerHasGet route = false →
      entryChain ec = some (mwWrap route.middleware Step.pageStep) ∧
      runStep beh (mwWrap route.middleware Step.pageStep) = Resp.pageHtml) := by
  have hchain := entryChain_ok route HttpVerb.get ec hok
  constructor
  · intro hhg
    have hin : innerStep route HttpVerb.get
        = Step.call (LayerRef.handlerL HttpVerb.get) Step.pageStep := by
      simp [innerStep, hp, hhg]
    rw [hin] at hchain
    refine ⟨hchain, ?_⟩
    rw [runStep_mwWrap beh _ _ hmw]
    cases hb : beh (LayerRef.handlerL HttpVerb.get) <;> simp [runStep, hb]
  · intro hhg
    have hin : innerStep route HttpVerb.get = Step.pageStep := by
      simp [innerStep, hp, hhg]
    rw [hin] at hchain
    exact ⟨hchain, by rw [runStep_mwWrap beh _ _ hmw]; rfl⟩

/-- Witness for C3 at the concrete page route, with every middleware
declining. -/
theorem c3_page_get_handler_fallback_witness :
    entryChain
      ⟨[(ContName.pageC, StepExpr.pageE),
        (ContName.handlerC HttpVerb.get,
          StepExpr.callE (LayerRef.handlerL HttpVerb.get) ContName.pageC),
        (ContName.mwareC 2, StepExpr.callE (LayerRef.mwareL 2) (ContName.handlerC HttpVerb.get))],
       StepExpr.callE (LayerRef.mwareL 1) (ContName.mwareC 2)⟩
      = some (mwWrap samplePageRoute.middleware
          (Step.call (LayerRef.handlerL HttpVerb.get) Step.pageStep)) ∧
    runStep (fun _ => none)
      (mwWrap samplePageRoute.middleware
        (Step.call (LayerRef.handlerL HttpVerb.get) Step.pageStep))
      = ((fun (_ : LayerRef) => (none : Option Resp)) (LayerRef.handlerL HttpVerb.get)).getD
          Resp.pageHtml :=
  (c3_page_get_handler_fallback samplePageRoute _ (fun _ => none) rfl rfl
    (fun _ _ => rfl)).1 rfl

/-- C8: for every route compiled for a verb with no page fallback (any verb
other than `get` on a page route), the innermost default next-step passed to
the handler's `call` wrapper is the reserved `noContent` sentinel, middleware
or not. -/
theorem c8_no_content_default (route : Route) (verb : HttpVerb) (ec : EntryCode)
    (hpg : (route.page.isSome && verb == HttpVerb.get) = false)
    (hok : writeRouteEntryHandler route verb = Except.ok ec) :
    entryChain ec
      = some (mwWrap route.middleware
          (Step.call (LayerRef.handlerL verb) Step.noContentStep)) := by
  have hchain := entryChain_ok route verb ec hok
  have hin : innerStep route verb = Step.call (LayerRef.handlerL verb) Step.noContentStep := by
    simp [innerStep, hpg]
  rw [hin] at hchain
  exact hchain

/-- Witness for C8: the middleware-bearing handler route compiled for `post`
bottoms out in `call(postHandler, noContent, context)`. -/
theorem c8_no_content_default_witness :
    entryChain
      ⟨[(ContName.handlerC HttpVerb.post,
          StepExpr.callE (LayerRef.handlerL HttpVerb.post) ContName.noContentC),
        (ContName.mwareC 2, StepExpr.callE (LayerRef.mwareL 2) (ContName.handlerC HttpVerb.post))],
       StepExpr.callE (LayerRef.mwareL 1) (ContName.mwareC 2)⟩
      = some (mwWrap sampleHandlerRoute.middleware
          (Step.call (LayerRef.handlerL HttpVerb.post) Step.noContentStep)) :=
  c8_no_content_default sampleHandlerRoute HttpVerb.post _ rfl rfl

theorem runVerbStep_terminal
    (rv : RouteTrie → List Char → Nat → Nat → Bool → List (Nat × List Char) →
      Option MatchResult)
    (rc : List RouteTrie → List Char → Nat → Nat → Nat → Bool → List Char → Bool →
      List (Nat × List Char) → Option MatchResult)
    (k : List Char) (rt : Option Route) (statics : List RouteTrie) (d : RouteTrie)
    (ca : Option Route) (pathname : List Char) (level off : Nat) (offIsVar : Bool)
    (env : List (Nat × List Char)) (X : MatchResult)
    (hlvl : level = 0 → 1 < pathname.length)
    (hseg : jsIndexOfPlus1 pathname '/' off = 0
      ∨ jsIndexOfPlus1 pathname '/' off = pathname.length)
    (hts : terminalStep statics ((some d).bind RouteTrie.route) pathname (level + 1) off
        (jsIndexOfPlus1 pathname '/' off) env = some X) :
    runVerbStep rv rc (RouteTrie.mk k rt statics (some d) ca) pathname level off offIsVar env
      = some X := by
  simp only [runVerbStep, Option.isNone_some, Bool.and_false, Bool.false_eq_true, if_false,
    if_pos hseg, hts]
  cases level with
  | zero =>
    cases rt with
    | some r =>
      have h1 : ¬ (pathname.length = 1) := by
        have := hlvl rfl
        omega
      simp [h1, Option.orElse]
    | none =>
      simp [hlvl rfl, Option.orElse]
  | succ n => simp [Option.orElse]

/-- C1: at every trie node, the matcher code emitted by `writeRouterVerb`
tries literal children before the dynamic child (and the catch-all only after
both): on the last path segment, when the lower-cased segment equals a literal
terminal child's key, that static route is returned even though the dynamic
child also holds a terminal route and the segment is non-empty — and only when
no literal terminal matches does the dynamic route win.  The trie carries no
declaration order, so the static route wins regardless of the order the routes
were declared in. -/
theorem c1_matcher_literal_before_dynamic
    (fuel : Nat) (k : List Char) (rt : Option Route) (statics : List RouteTrie)
    (d : RouteTrie) (ca : Option Route) (pathname : List Char) (level off : Nat)
    (offIsVar : Bool) (env : List (Nat × List Char)) (rd : Route) (i : Nat)
    (value : List Char)
    (hlvl : level = 0 → 1 < pathname.length)
    (hi : jsIndexOfPlus1 pathname '/' off = i)
    (hseg : i = 0 ∨ i = pathname.length)
    (hv : jsSlice pathname off (if i ≠ 0 then (-1 : Int) else (pathname.length : Int))
      = value)
    (hdyn : d.route = some rd)
    (hne : value ≠ []) :
    (∀ rs, findTerminal statics (jsToLower value) = some rs →
      runVerb (fuel + 1) (RouteTrie.mk k rt statics (some d) ca) pathname level off
          offIsVar env
        = some (evalMatch rs pathname ((level + 1, value) :: env) none)) ∧
    (findTerminal statics (jsToLower value) = none →
      runVerb (fuel + 1) (RouteTrie.mk k rt statics (some d) ca) pathname level off
          offIsVar env
        = some (evalMatch rd pathname ((level + 1, value) :: env) none)) := by
  have hbind : (some d).bind RouteTrie.route = some rd := by simp [hdyn]
  have hseg' : jsIndexOfPlus1 pathname '/' off = 0
      ∨ jsIndexOfPlus1 pathname '/' off = pathname.length := by
    rw [hi]
    exact hseg
  constructor
  · intro rs hterm
    have hts : terminalStep statics ((some d).bind RouteTrie.route) pathname (level + 1) off
        (jsIndexOfPlus1 pathname '/' off) env
        = some (evalMatch rs pathname ((level + 1, value) :: env) none) := by
      simp only [terminalStep, hi, hv, hbind, Option.isSome_some, if_true, hterm]
    simp only [runVerb]
    exact runVerbStep_terminal _ _ k rt statics d ca pathname level off offIsVar env _
      hlvl hseg' hts
  · intro hterm
    have hne' : value.isEmpty = false := by
      cases hb : value.isEmpty
      · rfl
      · exact absurd (List.isEmpty_iff.mp hb) hne
    have hts : terminalStep statics ((some d).bind RouteTrie.route) pathname (level + 1) off
        (jsIndexOfPlus1 pathname '/' off) env
        = some (evalMatch rd pathname ((level + 1, value) :: env) none) := by
      simp only [terminalStep, hi, hv, hbind, Option.isSome_some, if_true, hterm, hne',
        Bool.false_eq_true, if_false]
    simp only [runVerb]
    exact runVerbStep_terminal _ _ k rt statics d ca pathname level off offIsVar env _
      hlvl hseg' hts

/-- Witness for C1: at the `item` node, the path `/item/edit` matches both the
literal child `edit` (route `/item/edit`) and the dynamic child (route
`/item/$id`); the static route is returned. -/
theorem c1_matcher_literal_before_dynamic_witness :
    runVerb 13 (RouteTrie.mk "item".data none [sampleEditNode] (some sampleDynNode) none)
        "/item/edit".data 1 6 false []
      = some (evalMatch sampleStaticRoute "/item/edit".data [(2, "edit".data)] none) :=
  (c1_matcher_literal_before_dynamic 12 "item".data none [sampleEditNode] sampleDynNode
      none "/item/edit".data 1 6 false [] sampleDynRoute 0 "edit".data
      (by decide) (by decide) (Or.inl rfl) (by decide) rfl (by decide)).1
    sampleStaticRoute (by decide)
